import Mathlib

/-!
# Verification of the printpdf document model and save pipeline

Shallow embedding of the repository's three source files:
  * `src/types/pdf_document.rs`      (the metadata-bearing `PdfDocument`, "types module")
  * `src/api/types/pdf_document.rs`  (the earlier `PdfDocument`, "api module")
  * `src/api/types/pdf_marker.rs`    (`PdfMarker`)

The external collaborator `lopdf` (low-level object library) is modelled through the
boundary the spec fixes in section 6: `new_object_id`, `add_object`, `trailer.set`,
`prune_objects`, `delete_zero_length_streams`, `save_to`, and the object value variants.
Machine floats (`f64` dimensions) are modelled as rationals; random identifier
generation is modelled by passing the drawn string as an explicit argument.
-/

/-- `lopdf::StringFormat`. -/
inductive StringFormat where
  | literal
  | hexadecimal
deriving DecidableEq, Repr

/-- `lopdf::ObjectId = (u32, u32)` — object number and generation number. -/
abbrev ObjId := Nat × Nat

/-- `lopdf::Object`: the low-level object value variants named by the spec
(dictionary, array, integer, name, string-with-encoding, reference, stream). -/
inductive LoObject where
  | null
  | boolean (b : Bool)
  | integer (i : Int)
  | real (r : Rat)
  | name (s : String)
  | str (s : String) (fmt : StringFormat)
  | reference (id : ObjId)
  | array (xs : List LoObject)
  | dict (entries : List (String × LoObject))
  | stream (sdict : List (String × LoObject)) (content : String)

/-- Entry list of a `lopdf::Dictionary` (an insertion-ordered map). -/
abbrev LoDict := List (String × LoObject)

/-- `Dictionary::set`: replace the value in place if the key is present,
otherwise append the pair at the end. -/
def dictSet : LoDict → String → LoObject → LoDict
  | [], k, v => [(k, v)]
  | (k', v') :: es, k, v =>
    if k' = k then (k, v) :: es else (k', v') :: dictSet es k v

/-- Dictionary lookup (first matching key). -/
def dictGet : LoDict → String → Option LoObject
  | [], _ => none
  | (k', v') :: es, k => if k' = k then some v' else dictGet es k

/-- `Dictionary::from_iter`: sequential insertion of the listed pairs. -/
def dictFromIter (l : List (String × LoObject)) : LoDict :=
  l.foldl (fun d e => dictSet d e.1 e.2) []

mutual

/-- All object identifiers referenced (transitively through arrays, dictionaries
and stream dictionaries) by an object. -/
def refsOf : LoObject → List ObjId
  | .reference id => [id]
  | .array xs => refsOfList xs
  | .dict es => refsOfEntries es
  | .stream es _ => refsOfEntries es
  | _ => []

def refsOfList : List LoObject → List ObjId
  | [] => []
  | x :: xs => refsOf x ++ refsOfList xs

def refsOfEntries : List (String × LoObject) → List ObjId
  | [] => []
  | (_, v) :: es => refsOf v ++ refsOfEntries es

end

/-- `lopdf::Document` at the boundary the core uses: a version string, the
allocation counter `max_id`, the object table and the trailer dictionary. -/
structure LoDocument where
  version : String
  maxId : Nat
  objects : List (ObjId × LoObject)
  trailer : LoDict

/-- `lopdf::Document::new()`. -/
def LoDocument.new : LoDocument := ⟨"1.1", 0, [], []⟩

/-- `lopdf::Document::with_version(v)`. -/
def LoDocument.withVersion (v : String) : LoDocument := ⟨v, 0, [], []⟩

/-- The identifier the next allocation returns: `(max_id + 1, 0)`. -/
def nextId (d : LoDocument) : ObjId := (d.maxId + 1, 0)

/-- `lopdf::Document::new_object_id()`: bump `max_id` and hand out the fresh
identifier without registering any object. -/
def newObjectId (d : LoDocument) : LoDocument × ObjId :=
  ({ d with maxId := d.maxId + 1 }, (d.maxId + 1, 0))

/-- `lopdf::Document::add_object(o)`: allocate a fresh identifier and register
`o` under it.  The identifier returned by the Rust call is `nextId d`. -/
def addObject (d : LoDocument) (o : LoObject) : LoDocument :=
  { d with maxId := d.maxId + 1, objects := d.objects ++ [((d.maxId + 1, 0), o)] }

/-- Object-table lookup (first matching identifier). -/
def objFind : List (ObjId × LoObject) → ObjId → Option LoObject
  | [], _ => none
  | (i, o) :: es, id => if i = id then some o else objFind es id

/-- `BTreeMap::insert` on the object table: replace in place or append. -/
def objInsert : List (ObjId × LoObject) → ObjId → LoObject → List (ObjId × LoObject)
  | [], id, o => [(id, o)]
  | (i, o') :: es, id, o =>
    if i = id then (id, o) :: es else (i, o') :: objInsert es id o

/-- Identifiers referenced by the object registered at `id` (empty if absent). -/
def objRefsAt (objs : List (ObjId × LoObject)) (id : ObjId) : List ObjId :=
  match objFind objs id with
  | some o => refsOf o
  | none => []

/-- One step of reference chasing: keep the set and add everything the objects
at its identifiers reference. -/
def reachStep (objs : List (ObjId × LoObject)) (s : List ObjId) : List ObjId :=
  s ++ (s.map (objRefsAt objs)).flatten

/-- Iterated reference chasing from a seed set. -/
def reachN (objs : List (ObjId × LoObject)) : Nat → List ObjId → List ObjId
  | 0, s => s
  | k + 1, s => reachStep objs (reachN objs k s)

/-- Modelled from the spec: `lopdf::Document::prune_objects` (the source is not
under `src/`) removes the objects that are not reachable from the trailer
("prune unreachable/dangling objects", spec section 4.7 phase 3). -/
def pruneObjects (d : LoDocument) : LoDocument :=
  let reach := reachN d.objects d.objects.length (refsOf (.dict d.trailer))
  { d with objects := d.objects.filter (fun e => decide (e.1 ∈ reach)) }

/-- Is the object a stream with empty content? -/
def isZeroLenStream : LoObject → Bool
  | .stream _ c => c.length == 0
  | _ => false

/-- Modelled from the spec: `lopdf::Document::delete_zero_length_streams` (the
source is not under `src/`) drops stream objects whose content is empty
("drop zero-length streams", spec section 4.7 phase 3). -/
def deleteZeroLengthStreams (d : LoDocument) : LoDocument :=
  { d with objects := d.objects.filter (fun e => !isZeroLenStream e.2) }

/-- Modelled from the spec: `lopdf::Document::compress` (external collaborator;
spec section 6 makes raw byte encoding and compression entirely the
collaborator's responsibility) re-encodes stream contents and does not add,
remove or restructure objects; on this structural abstraction it is the
identity. -/
def compress (d : LoDocument) : LoDocument := d

/-- The error taxonomy of `errors::*` (spec section 7). -/
inductive IndexErrorKind where
  | pdfPageIndexError
  | pdfLayerIndexError
  | pdfMarkerIndexError
  | pdfContentIndexError
deriving DecidableEq, Repr

/-- `errors::Error`, carrying its kind. -/
inductive PdfError where
  | indexError (k : IndexErrorKind)
  | fontParseError
  | ioError
  | conformanceError
deriving DecidableEq, Repr

/-- Result of running Rust code that may `panic!` (e.g. through `unwrap`). -/
inductive PanicOr (α : Type) where
  | panicked
  | ok (a : α)
deriving DecidableEq, Repr

/-- `Result::unwrap()`. -/
def unwrapExcept : Except ε α → PanicOr α
  | .error _ => .panicked
  | .ok a => .ok a

/-- `Option::unwrap()`. -/
def unwrapOption : Option α → PanicOr α
  | none => .panicked
  | some a => .ok a

def PanicOr.map (f : α → β) : PanicOr α → PanicOr β
  | .panicked => .panicked
  | .ok a => .ok (f a)

/-- Modelled from the spec: `lopdf::Document::save_to(target)` serializes the
object graph to the output stream; "any I/O failure while writing to the
output stream" is the failure condition (spec section 4.7).  The possibility of
such a failure is injected through `ioFails`. -/
def saveToResult (_d : LoDocument) (ioFails : Bool) : Except PdfError Unit :=
  if ioFails then .error .ioError else .ok ()

/-! ## Geometric primitives, markers, layers, pages -/

/-- Modelled from the spec: the `mm_to_pt!` conversion macro is not under
`src/`.  Spec section 4.1: "pure, deterministic, linear conversion (native
unit = 1/72 of the reference unit system; human input is in millimeters)";
25.4 mm convert to exactly 72 native units. -/
def mmToPt (mm : Rat) : Rat := mm / (254 / 10) * 72

/-- `PdfMarker` (`src/api/types/pdf_marker.rs`): a position in native units. -/
structure PdfMarker where
  x_pt : Rat
  y_pt : Rat
deriving DecidableEq, Repr

/-- `PdfMarker::new(x_mm, y_mm)`: converts the millimeter inputs once at
creation. -/
def PdfMarker.new (x_mm y_mm : Rat) : PdfMarker :=
  { x_pt := mmToPt x_mm, y_pt := mmToPt y_mm }

/-- Modelled from the spec: `PdfLayer` is not under `src/`.  Spec section 3:
`Layer = (name, ordered sequence of Marker)`. -/
structure PdfLayer where
  name : String
  markers : List PdfMarker
deriving DecidableEq, Repr

/-- Modelled from the spec: a freshly added layer is empty (section 4.3). -/
def PdfLayer.new (nm : String) : PdfLayer := { name := nm, markers := [] }

/-- Modelled from the spec: `Layer.add_marker(x_mm, y_mm)` "converts inputs
via 4.1, appends, returns the new index (= previous length)" (section 4.2). -/
def PdfLayer.add_marker (l : PdfLayer) (x_mm y_mm : Rat) : PdfLayer × Nat :=
  ({ l with markers := l.markers ++ [PdfMarker.new x_mm y_mm] }, l.markers.length)

/-- Modelled from the spec: `Layer.get_marker(idx)` is index-validated and
fails at the marker level of the taxonomy (sections 4.3, 7). -/
def PdfLayer.get_marker (l : PdfLayer) (i : Nat) : Except PdfError PdfMarker :=
  match l.markers.get? i with
  | some m => .ok m
  | none => .error (.indexError .pdfMarkerIndexError)

/-- Modelled from the spec: `PdfPage` is not under `src/`.  Spec section 3:
width/height in native units plus the ordered layer sequence.  The field names
`width_pt` / `heigth_pt` are the ones both save functions read.  The
non-owning back-reference to the document carries no behavioural content here
and is omitted (its only observable effect, the `self.pages[0]` indexing in
`add_page`, is modelled there). -/
structure PdfPage where
  width_pt : Rat
  heigth_pt : Rat
  layers : List PdfLayer
deriving DecidableEq, Repr

/-- Modelled from the spec: `PdfPage::new(document, width_mm, height_mm,
initial_layer_name)` (called by both `PdfDocument::new` and
`PdfDocument::add_page` of the types module) converts the dimensions once at
creation and pre-populates the page with one layer, returning the new layer's
index (sections 3, 4.4 and the lifecycle constraint of section 3). -/
def PdfPage.new (width_mm height_mm : Rat) (initialLayerName : String) :
    PdfPage × Nat :=
  ({ width_pt := mmToPt width_mm, heigth_pt := mmToPt height_mm,
     layers := [PdfLayer.new initialLayerName] }, 0)

/-- Modelled from the spec: the api module's `PdfPage::new(x_mm, y_mm)` (no
layer-name argument; called by the api module's `add_page`).  The lifecycle
constraint of spec section 3 — "every instance must have at least one page and
one layer" — makes the page start with one (unnamed) layer. -/
def PdfPage.newApi (x_mm y_mm : Rat) : PdfPage :=
  { width_pt := mmToPt x_mm, heigth_pt := mmToPt y_mm,
    layers := [PdfLayer.new ""] }

/-- Modelled from the spec: `Page.add_layer(name)` "appends a new empty Layer
with the given name; returns its index" (section 4.3). -/
def PdfPage.add_layer (p : PdfPage) (nm : String) : PdfPage × Nat :=
  ({ p with layers := p.layers ++ [PdfLayer.new nm] }, p.layers.length)

/-- Modelled from the spec: `Page.get_layer(idx)` is index-validated and fails
at the layer level of the taxonomy (sections 4.3, 4.4, 7). -/
def PdfPage.get_layer (p : PdfPage) (i : Nat) : Except PdfError PdfLayer :=
  match p.layers.get? i with
  | some l => .ok l
  | none => .error (.indexError .pdfLayerIndexError)

/-- Replace the element at an index, leaving the list unchanged when the index
is out of range (the effect of mutating through a `get_mut`-style borrow). -/
def listModify (f : α → α) : Nat → List α → List α
  | _, [] => []
  | 0, a :: as => f a :: as
  | n + 1, a :: as => a :: listModify f n as

/-! ## Metadata (types module) -/

/-- `PdfConformance` as used by `src/types/pdf_document.rs` (the only variant
the source names). -/
inductive PdfConformance where
  | x3_2003_pdf_1_4
deriving DecidableEq, Repr

/-- `chrono::DateTime<chrono::Local>` modelled as an abstract timestamp. -/
structure DateTimeLocal where
  stamp : Int
deriving DecidableEq, Repr

/-- Modelled from the spec: the XMP metadata part of `PdfMetadata` (not under
`src/`); `with_document_id` writes its `document_id` field. -/
structure XmpMetadata where
  document_id : String
deriving DecidableEq, Repr

/-- Modelled from the spec: `PdfMetadata` is not under `src/`.  Fields are the
ones the source functions touch (`trapping`, `document_version`, `conformance`,
`modification_date`, `document_title`, `xmp_metadata.document_id`) together
with the metadata entity of spec section 3 (creation timestamp, optional ICC
profile). -/
structure PdfMetadata where
  document_title : String
  document_version : Nat
  trapping : Bool
  conformance : PdfConformance
  creation_date : DateTimeLocal
  modification_date : DateTimeLocal
  xmp_metadata : XmpMetadata
  icc_profile : Option String
deriving DecidableEq, Repr

/-- Modelled from the spec: `PdfMetadata::new(title, version, trapping,
conformance)` (not under `src/`); timestamps are drawn from the clock, passed
here explicitly, and no ICC profile is set initially. -/
def PdfMetadata.new (title : String) (version : Nat) (trapping : Bool)
    (conformance : PdfConformance) (now : DateTimeLocal) : PdfMetadata :=
  { document_title := title, document_version := version, trapping := trapping,
    conformance := conformance, creation_date := now,
    modification_date := now, xmp_metadata := { document_id := "" },
    icc_profile := none }

/-- Target-format date encoding (spec section 4.6), abstractly. -/
def pdfDate (d : DateTimeLocal) : String := "D:" ++ toString d.stamp

/-- Modelled from the spec: `PdfMetadata::into_obj` (not under `src/`) is the
metadata compiler of spec section 4.6: `compile_metadata(metadata) ->
(XmpObject, InfoDictionary, optional IccProfileObject)`, emitting identifiers,
both timestamps, title strings, and the ICC profile stream exactly when a
profile is set; it is non-validating and has no error conditions. -/
def PdfMetadata.into_obj (m : PdfMetadata) :
    LoObject × LoObject × Option LoObject :=
  ( .stream [("Type", .name "Metadata"), ("Subtype", .name "XML")]
      ("<x:xmpmeta>" ++ m.xmp_metadata.document_id ++ "</x:xmpmeta>"),
    .dict [("Title", .str m.document_title .literal),
           ("Producer", .str "printpdf" .literal),
           ("CreationDate", .str (pdfDate m.creation_date) .literal),
           ("ModDate", .str (pdfDate m.modification_date) .literal),
           ("Trapped", .name (if m.trapping then "True" else "False"))],
    m.icc_profile.map (fun p => .stream [("Length", .integer p.length)] p) )

/-! ## The types module: `src/types/pdf_document.rs` -/

/-- `PdfDocument` of `src/types/pdf_document.rs`. -/
structure PdfDocument where
  pages : List PdfPage
  contents : List LoObject
  inner_doc : LoDocument
  document_id : String
  metadata : PdfMetadata

/-- `PdfDocument::new(document_title, initial_page_width_mm,
initial_page_height_mm, initial_layer_name)`.  The 32-character random
`document_id` drawn from the thread rng and the clock reading inside
`PdfMetadata::new` are passed explicitly (`documentId`, `now`). -/
def PdfDocument.new (documentTitle : String)
    (initialPageWidthMm initialPageHeightMm : Rat)
    (initialLayerName : String) (documentId : String) (now : DateTimeLocal) :
    PdfDocument × Nat × Nat :=
  let pl := PdfPage.new initialPageWidthMm initialPageHeightMm initialLayerName
  ({ pages := [pl.1], contents := [],
     inner_doc := LoDocument.withVersion "1.3", document_id := documentId,
     metadata := PdfMetadata.new documentTitle 1 false .x3_2003_pdf_1_4 now },
   0, pl.2)

/-- `PdfDocument::with_trapping`. -/
def PdfDocument.with_trapping (self : PdfDocument) (trapping : Bool) : PdfDocument :=
  { self with metadata := { self.metadata with trapping := trapping } }

/-- `PdfDocument::with_document_id` (writes `metadata.xmp_metadata.document_id`). -/
def PdfDocument.with_document_id (self : PdfDocument) (id : String) : PdfDocument :=
  { self with metadata :=
      { self.metadata with xmp_metadata :=
          { self.metadata.xmp_metadata with document_id := id } } }

/-- `PdfDocument::with_document_version`. -/
def PdfDocument.with_document_version (self : PdfDocument) (version : Nat) : PdfDocument :=
  { self with metadata := { self.metadata with document_version := version } }

/-- `PdfDocument::with_conformance`. -/
def PdfDocument.with_conformance (self : PdfDocument) (conformance : PdfConformance) : PdfDocument :=
  { self with metadata := { self.metadata with conformance := conformance } }

/-- `PdfDocument::with_mod_date`. -/
def PdfDocument.with_mod_date (self : PdfDocument) (modDate : DateTimeLocal) : PdfDocument :=
  { self with metadata := { self.metadata with modification_date := modDate } }

/-- `PdfDocument::set_title`. -/
def PdfDocument.set_title (self : PdfDocument) (newTitle : String) : PdfDocument :=
  { self with metadata := { self.metadata with document_title := newTitle } }

/-- `PdfDocument::add_page(x_mm, y_mm, inital_layer_name)`: builds the new page
through `PdfPage::new`, pushes it, and returns
`(PdfPageIndex(pages.len() - 1), layer_index)`.  The preceding
`self.pages[0].document` access panics when the page list is empty (the source
comment reads "temporary, there has to be at least one root node"), which is
the `none` case. -/
def PdfDocument.add_page (self : PdfDocument) (x_mm y_mm : Rat)
    (initalLayerName : String) : Option (PdfDocument × Nat × Nat) :=
  match self.pages with
  | [] => none
  | _ :: _ =>
    let pl := PdfPage.new x_mm y_mm initalLayerName
    let newPages := self.pages ++ [pl.1]
    some ({ self with pages := newPages }, newPages.length - 1, pl.2)

/-- `PdfDocument::add_arbitrary_content(content)`: registers the compiled
object in the inner document and pushes a reference to it, returning
`PdfContentIndex(contents.len() - 1)`.  The argument is the compiled
`into_obj()` value of the content. -/
def PdfDocument.add_arbitrary_content (self : PdfDocument) (contentObj : LoObject) :
    PdfDocument × Nat :=
  let objId := nextId self.inner_doc
  let newContents := self.contents ++ [LoObject.reference objId]
  ({ self with
      inner_doc := addObject self.inner_doc contentObj,
      contents := newContents },
   newContents.length - 1)

/-- `PdfDocument::get_page_mut(page)`: `self.pages.get_mut(page.0).unwrap()` —
the lookup result is unwrapped, so an out-of-range index panics. -/
def PdfDocument.get_page_mut (self : PdfDocument) (page : Nat) : PanicOr PdfPage :=
  unwrapOption (self.pages.get? page)

/-- The `OutputCondition` string of `PdfDocument::save`. -/
def iccProfileDescr : String :=
  "Commercial and special offset print acccording to ISO 12647-2:2004 / Amd 1, paper type 1 or 2 (matte or gloss-coated offset paper, 115 g/m2), screen ruling 60/cm"

/-- The page dictionary built for each page in `PdfDocument::save` of the types
module: `Type=Page`, `Rotate=0`, `MediaBox`/`TrimBox`/`CropBox` all
`[0, 0, width_pt, heigth_pt]`, `Parent` referencing the reserved page-tree
identifier. -/
def pageDictTypes (pagesId : ObjId) (page : PdfPage) : LoDict :=
  dictFromIter
    [("Type", .name "Page"),
     ("Rotate", .integer 0),
     ("MediaBox", .array [.integer 0, .integer 0,
        .real page.width_pt, .real page.heigth_pt]),
     ("TrimBox", .array [.integer 0, .integer 0,
        .real page.width_pt, .real page.heigth_pt]),
     ("CropBox", .array [.integer 0, .integer 0,
        .real page.width_pt, .real page.heigth_pt]),
     ("Parent", .reference pagesId)]

/-- The `for page in self.pages` loop shared by both save functions: build the
page dictionary, register it, and collect a reference to it into the kids
list, in insertion order. -/
def pagesLoop (mkPage : PdfPage → LoDict) :
    LoDocument → List PdfPage → List LoObject × LoDocument
  | inner, [] => ([], inner)
  | inner, pg :: rest =>
    let pid := nextId inner
    let inner1 := addObject inner (.dict (mkPage pg))
    let r := pagesLoop mkPage inner1 rest
    (.reference pid :: r.1, r.2)

/-- `PdfDocument::save` of the types module, up to (and excluding) the final
`save_to` call: the state of the inner document that gets serialized.  The
fresh 32-character `instance_id` drawn inside `save` is passed explicitly. -/
def typesSavePre (self : PdfDocument) (instanceId : String) : LoDocument :=
  let r0 := newObjectId self.inner_doc
  let inner1 := r0.1
  let pagesId := r0.2
  let meta := self.metadata.into_obj
  let xmpMetadataId := nextId inner1
  let inner2 := addObject inner1 meta.1
  let documentInfoId := nextId inner2
  let inner3 := addObject inner2 meta.2.1
  let outputIntents0 := dictFromIter
    [("S", .name "GTS_PDFX"),
     ("OutputCondition", .str iccProfileDescr .literal),
     ("Type", .name "OutputIntent"),
     ("OutputConditionIdentifier", .str "FOGRA39" .literal),
     ("RegistryName", .str "http://www.color.org" .literal),
     ("Info", .str "Coated FOGRA39 (ISO 12647-2:2004)" .literal)]
  let r1 := match meta.2.2 with
    | some profile =>
      (addObject inner3 profile,
       dictSet outputIntents0 "DestinationOutputProfile"
         (.reference (nextId inner3)))
    | none => (inner3, outputIntents0)
  let inner4 := r1.1
  let outputIntents := r1.2
  let catalog := dictFromIter
    [("Type", .name "Catalog"),
     ("PageLayout", .name "OneColumn"),
     ("PageMode", .name "Use0"),
     ("Pages", .reference pagesId),
     ("Metadata", .reference xmpMetadataId),
     ("OutputIntents", .array [.dict outputIntents])]
  let pages0 := dictFromIter
    [("Type", .name "Pages"), ("Count", .integer self.pages.length)]
  let lp := pagesLoop (pageDictTypes pagesId) inner4 self.pages
  let pages1 := dictSet pages0 "Kids" (.array lp.1)
  let inner5 := { lp.2 with objects := objInsert lp.2.objects pagesId (.dict pages1) }
  let catalogId := nextId inner5
  let inner6 := addObject inner5 (.dict catalog)
  { inner6 with
      trailer :=
        dictSet (dictSet (dictSet inner6.trailer
            "Root" (.reference catalogId))
            "Info" (.reference documentInfoId))
            "ID" (.array [.str self.document_id .literal,
                          .str instanceId .literal]) }

/-- The inner document serialized by the types module's save: the constructed
state after `prune_objects()` and `delete_zero_length_streams()`. -/
def typesSaveDoc (self : PdfDocument) (instanceId : String) : LoDocument :=
  deleteZeroLengthStreams (pruneObjects (typesSavePre self instanceId))

/-- `PdfDocument::save` of the types module as the caller observes it:
`self.inner_doc.save_to(target).unwrap(); Ok(())`. -/
def typesSaveRun (self : PdfDocument) (instanceId : String) (ioFails : Bool) :
    PanicOr (Except PdfError Unit) :=
  (unwrapExcept (saveToResult (typesSaveDoc self instanceId) ioFails)).map
    (fun _ => Except.ok ())

/-! ## The api module: `src/api/types/pdf_document.rs` -/

/-- `PdfDocument` of `src/api/types/pdf_document.rs`.  The index aliases of
that module are plain tuples: `PdfPageIndex = usize`,
`PdfLayerIndex = (page, layer)`, `PdfMarkerIndex = (page, layer, marker)`. -/
structure ApiPdfDocument where
  pages : List PdfPage
  title : String
  creator : String
  contents : List LoObject
  inner_doc : LoDocument
  current_marker : Nat × Nat × Nat

/-- `PdfDocument::new(initial_page, title, creator)` of the api module. -/
def ApiPdfDocument.new (initialPage : PdfPage) (title creator : String) :
    ApiPdfDocument :=
  { pages := [initialPage], title := title, creator := creator,
    contents := [], inner_doc := LoDocument.new, current_marker := (0, 0, 0) }

/-- `add_page(x_mm, y_mm)` of the api module: pushes a new page and returns
`pages.len() - 1`. -/
def ApiPdfDocument.add_page (self : ApiPdfDocument) (x_mm y_mm : Rat) :
    ApiPdfDocument × Nat :=
  let newPages := self.pages ++ [PdfPage.newApi x_mm y_mm]
  ({ self with pages := newPages }, newPages.length - 1)

/-- `get_page(page)` of the api module: index-validated, failing with
`IndexError(PdfPageIndexError)`. -/
def ApiPdfDocument.get_page (self : ApiPdfDocument) (page : Nat) :
    Except PdfError PdfPage :=
  match self.pages.get? page with
  | some p => .ok p
  | none => .error (.indexError .pdfPageIndexError)

/-- `get_mut_page(page)` of the api module: same validation as `get_page`. -/
def ApiPdfDocument.get_mut_page (self : ApiPdfDocument) (page : Nat) :
    Except PdfError PdfPage :=
  match self.pages.get? page with
  | some p => .ok p
  | none => .error (.indexError .pdfPageIndexError)

/-- `get_layer(layer)` of the api module: the page hop through `get_page`,
then the layer hop on the page. -/
def ApiPdfDocument.get_layer (self : ApiPdfDocument) (layer : Nat × Nat) :
    Except PdfError PdfLayer :=
  match self.get_page layer.1 with
  | .error e => .error e
  | .ok p => p.get_layer layer.2

/-- `get_mut_layer(layer)` of the api module. -/
def ApiPdfDocument.get_mut_layer (self : ApiPdfDocument) (layer : Nat × Nat) :
    Except PdfError PdfLayer :=
  match self.get_mut_page layer.1 with
  | .error e => .error e
  | .ok p => p.get_layer layer.2

/-- `get_marker(marker)` of the api module: page hop, layer hop, marker hop. -/
def ApiPdfDocument.get_marker (self : ApiPdfDocument) (marker : Nat × Nat × Nat) :
    Except PdfError PdfMarker :=
  match self.get_page marker.1 with
  | .error e => .error e
  | .ok p =>
    match p.get_layer marker.2.1 with
    | .error e => .error e
    | .ok l => l.get_marker marker.2.2

/-- `get_mut_marker(marker)` of the api module. -/
def ApiPdfDocument.get_mut_marker (self : ApiPdfDocument) (marker : Nat × Nat × Nat) :
    Except PdfError PdfMarker :=
  match self.get_mut_page marker.1 with
  | .error e => .error e
  | .ok p =>
    match p.get_layer marker.2.1 with
    | .error e => .error e
    | .ok l => l.get_marker marker.2.2

/-- `add_layer(name, page)` of the api module: `get_mut_page(page)?.add_layer(name)`;
on success the document is mutated through the borrow and `(page, layer_index)`
is returned. -/
def ApiPdfDocument.add_layer (self : ApiPdfDocument) (nm : String) (page : Nat) :
    ApiPdfDocument × Except PdfError (Nat × Nat) :=
  match self.pages.get? page with
  | none => (self, .error (.indexError .pdfPageIndexError))
  | some p =>
    let r := p.add_layer nm
    ({ self with pages := listModify (fun _ => r.1) page self.pages },
     .ok (page, r.2))

/-- `add_marker(x_mm, y_mm, layer)` of the api module:
`get_mut_page(layer.0)?.get_mut_layer(layer.1)?.add_marker(x_mm, y_mm)`. -/
def ApiPdfDocument.add_marker (self : ApiPdfDocument) (x_mm y_mm : Rat)
    (layer : Nat × Nat) : ApiPdfDocument × Except PdfError (Nat × Nat × Nat) :=
  match self.pages.get? layer.1 with
  | none => (self, .error (.indexError .pdfPageIndexError))
  | some p =>
    match p.layers.get? layer.2 with
    | none => (self, .error (.indexError .pdfLayerIndexError))
    | some l =>
      let r := l.add_marker x_mm y_mm
      ({ self with
          pages :=
            listModify
              (fun pg =>
                { pg with layers := listModify (fun _ => r.1) layer.2 pg.layers })
              layer.1 self.pages },
       .ok (layer.1, layer.2, r.2))

/-- `add_arbitrary_content(content)` of the api module: pushes the content and
returns `contents.len() - 1`. -/
def ApiPdfDocument.add_arbitrary_content (self : ApiPdfDocument)
    (contentObj : LoObject) : ApiPdfDocument × Nat :=
  let newContents := self.contents ++ [contentObj]
  ({ self with contents := newContents }, newContents.length - 1)

/-- `set_current_marker(marker)` of the api module. -/
def ApiPdfDocument.set_current_marker (self : ApiPdfDocument)
    (marker : Nat × Nat × Nat) : ApiPdfDocument :=
  { self with current_marker := marker }

/-- The page dictionary built in the api module's save:
`Type=Page`, `MediaBox=[0, 0, width_pt, heigth_pt]`, `Parent` referencing the
reserved identifier — followed by the redundant `p.set("Parent", ...)`. -/
def pageDictApi (start : ObjId) (page : PdfPage) : LoDict :=
  dictSet
    (dictFromIter
      [("Type", .name "Page"),
       ("MediaBox", .array [.integer 0, .integer 0,
          .real page.width_pt, .real page.heigth_pt]),
       ("Parent", .reference start)])
    "Parent" (.reference start)

/-- `PdfDocument::save` of the api module, up to (and excluding) the final
`save_to` call.  Note that the `pages` dictionary that receives the `Kids`
list is built but never registered in the inner document (mirroring the
source), and the trailer only receives `Root`. -/
def apiSaveDoc (self : ApiPdfDocument) : LoDocument :=
  let r0 := newObjectId self.inner_doc
  let inner1 := r0.1
  let start := r0.2
  let catalog := dictFromIter
    [("Type", .name "Catalog"),
     ("PageLayout", .name "OneColumn"),
     ("PageMode", .name "Use0"),
     ("Pages", .reference start)]
  let pages0 := dictFromIter
    [("Type", .name "Pages"), ("Count", .integer self.pages.length)]
  let lp := pagesLoop (pageDictApi start) inner1 self.pages
  let pagesWithKids := dictSet pages0 "Kids" (.array lp.1)
  let _unregistered := pagesWithKids
  let catalogId := nextId lp.2
  let inner2 := addObject lp.2 (.dict catalog)
  let inner3 := { inner2 with
      trailer := dictSet inner2.trailer "Root" (.reference catalogId) }
  compress inner3

/-- `PdfDocument::save` of the api module as the caller observes it:
`self.inner_doc.save_to(target).unwrap(); Ok(())`. -/
def apiSaveRun (self : ApiPdfDocument) (ioFails : Bool) :
    PanicOr (Except PdfError Unit) :=
  (unwrapExcept (saveToResult (apiSaveDoc self) ioFails)).map
    (fun _ => Except.ok ())

/-! ## Reachable document states -/

/-- Documents of the types module constructible through its public API:
the constructor, the builder setters, the append-only add operations, and
page/layer mutation through the `get_page_mut` borrow (the page-level and
layer-level operations come from spec sections 4.2 and 4.3). -/
inductive TypesReachable : PdfDocument → Prop where
  | new (t : String) (w h : Rat) (ln did : String) (now : DateTimeLocal) :
      TypesReachable (PdfDocument.new t w h ln did now).1
  | with_trapping (d : PdfDocument) (b : Bool) :
      TypesReachable d → TypesReachable (d.with_trapping b)
  | with_document_id (d : PdfDocument) (id : String) :
      TypesReachable d → TypesReachable (d.with_document_id id)
  | with_document_version (d : PdfDocument) (v : Nat) :
      TypesReachable d → TypesReachable (d.with_document_version v)
  | with_conformance (d : PdfDocument) (c : PdfConformance) :
      TypesReachable d → TypesReachable (d.with_conformance c)
  | with_mod_date (d : PdfDocument) (dt : DateTimeLocal) :
      TypesReachable d → TypesReachable (d.with_mod_date dt)
  | set_title (d : PdfDocument) (t : String) :
      TypesReachable d → TypesReachable (d.set_title t)
  | add_page (d : PdfDocument) (w h : Rat) (nm : String)
      (d' : PdfDocument) (i j : Nat) :
      TypesReachable d → d.add_page w h nm = some (d', i, j) →
      TypesReachable d'
  | add_arbitrary_content (d : PdfDocument) (o : LoObject) :
      TypesReachable d → TypesReachable (d.add_arbitrary_content o).1
  | page_add_layer (d : PdfDocument) (i : Nat) (nm : String) :
      TypesReachable d →
      TypesReachable
        { d with pages := listModify (fun p => (p.add_layer nm).1) i d.pages }
  | layer_add_marker (d : PdfDocument) (i j : Nat) (x y : Rat) :
      TypesReachable d →
      TypesReachable
        { d with
            pages :=
              listModify
                (fun p =>
                  { p with
                      layers :=
                        listModify (fun l => (l.add_marker x y).1) j p.layers })
                i d.pages }

/-- Documents of the api module constructible through its public API.  The
initial page handed to the constructor is itself constructible, hence starts
with at least one layer (captured by the hypothesis). -/
inductive ApiReachable : ApiPdfDocument → Prop where
  | new (p : PdfPage) (t c : String) :
      p.layers ≠ [] → ApiReachable (ApiPdfDocument.new p t c)
  | add_page (a : ApiPdfDocument) (x y : Rat) :
      ApiReachable a → ApiReachable (a.add_page x y).1
  | add_layer (a : ApiPdfDocument) (nm : String) (page : Nat) :
      ApiReachable a → ApiReachable (a.add_layer nm page).1
  | add_marker (a : ApiPdfDocument) (x y : Rat) (layer : Nat × Nat) :
      ApiReachable a → ApiReachable (a.add_marker x y layer).1
  | add_arbitrary_content (a : ApiPdfDocument) (o : LoObject) :
      ApiReachable a → ApiReachable (a.add_arbitrary_content o).1
  | set_current_marker (a : ApiPdfDocument) (m : Nat × Nat × Nat) :
      ApiReachable a → ApiReachable (a.set_current_marker m)

/-- Well-formedness of a low-level document: every registered identifier has
an object number that does not exceed the allocation counter (maintained by
`lopdf`, vacuous for the fresh documents the constructors build). -/
def InnerWF (d : LoDocument) : Prop :=
  ∀ e ∈ d.objects, e.1.1 ≤ d.maxId

/-! ## Concrete sample documents -/

/-- A concrete types-module document: one A4 page, one layer. -/
def typesDemoDoc : PdfDocument :=
  (PdfDocument.new "Document" 210 297 "Layer 1" "THEDOCUMENTID" ⟨0⟩).1

/-- A concrete api-module document: one A4 page. -/
def apiDemoDoc : ApiPdfDocument :=
  ApiPdfDocument.new (PdfPage.newApi 210 297) "Document" "Creator"

/-! ## Lemmas about the low-level model -/

theorem dictGet_dictSet_self (t : LoDict) (k : String) (v : LoObject) :
    dictGet (dictSet t k v) k = some v := by
  induction t with
  | nil => simp [dictSet, dictGet]
  | cons e es ih =>
    obtain ⟨k', v'⟩ := e
    by_cases h : k' = k
    · simp [dictSet, h, dictGet]
    · simp [dictSet, h, dictGet, ih]

theorem dictGet_dictSet_ne (t : LoDict) (k' k : String) (v : LoObject)
    (hne : k' ≠ k) : dictGet (dictSet t k' v) k = dictGet t k := by
  induction t with
  | nil => simp [dictSet, dictGet, hne]
  | cons e es ih =>
    obtain ⟨a, b⟩ := e
    by_cases h : a = k'
    · simp [dictSet, h, dictGet, hne]
    · simp only [dictSet, h, if_false]
      by_cases h2 : a = k
      · simp [dictGet, h2]
      · simp [dictGet, h2, ih]

theorem mem_dictSet_self (t : LoDict) (k : String) (v : LoObject) :
    (k, v) ∈ dictSet t k v := by
  induction t with
  | nil => simp [dictSet]
  | cons e es ih =>
    obtain ⟨a, b⟩ := e
    by_cases h : a = k
    · simp [dictSet, h]
    · simp only [dictSet, h, if_false]
      exact List.mem_cons_of_mem _ ih

theorem mem_dictSet_of_ne (t : LoDict) (k0 k : String) (v0 v : LoObject)
    (hmem : (k0, v0) ∈ t) (hne : k0 ≠ k) : (k0, v0) ∈ dictSet t k v := by
  induction t with
  | nil => cases hmem
  | cons e es ih =>
    obtain ⟨a, b⟩ := e
    rcases List.mem_cons.1 hmem with h0 | h0
    · injection h0 with h1 h2
      subst h1
      subst h2
      simp only [dictSet, if_neg hne]
      exact List.mem_cons_self _ _
    · by_cases h : a = k
      · simp only [dictSet, h, if_true]
        exact List.mem_cons_of_mem _ h0
      · simp only [dictSet, h, if_false]
        exact List.mem_cons_of_mem _ (ih h0)

theorem mem_refsOfEntries (es : LoDict) (k : String) (v : LoObject) (x : ObjId)
    (hmem : (k, v) ∈ es) (hx : x ∈ refsOf v) : x ∈ refsOfEntries es := by
  induction es with
  | nil => cases hmem
  | cons e es ih =>
    obtain ⟨a, b⟩ := e
    rcases List.mem_cons.1 hmem with h0 | h0
    · injection h0 with h1 h2
      subst h2
      simp only [refsOfEntries, List.mem_append]
      exact Or.inl hx
    · simp only [refsOfEntries, List.mem_append]
      exact Or.inr (ih h0)

theorem objFind_append_left (l l2 : List (ObjId × LoObject)) (id : ObjId)
    (o : LoObject) (h : objFind l id = some o) :
    objFind (l ++ l2) id = some o := by
  induction l with
  | nil => simp [objFind] at h
  | cons e es ih =>
    obtain ⟨i, o'⟩ := e
    by_cases hi : i = id
    · simp only [objFind, hi, if_true] at h
      simp [objFind, hi, h]
    · simp only [objFind, hi, if_false] at h
      simp [objFind, hi, ih h]

theorem objFind_append_of_ne (l l2 : List (ObjId × LoObject)) (id : ObjId)
    (h : ∀ e ∈ l, e.1 ≠ id) : objFind (l ++ l2) id = objFind l2 id := by
  induction l with
  | nil => simp
  | cons e es ih =>
    obtain ⟨i, o'⟩ := e
    have hi : i ≠ id := h (i, o') (List.mem_cons_self _ _)
    simp only [List.cons_append, objFind, hi, if_false]
    exact ih (fun e he => h e (List.mem_cons_of_mem _ he))

theorem objFind_eq_none (l : List (ObjId × LoObject)) (id : ObjId)
    (h : ∀ e ∈ l, e.1 ≠ id) : objFind l id = none := by
  have := objFind_append_of_ne l [] id h
  simpa using this

theorem objFind_filter (p : ObjId × LoObject → Bool) (l : List (ObjId × LoObject))
    (id : ObjId) (o : LoObject) (h : objFind l id = some o)
    (hp : p (id, o) = true) : objFind (l.filter p) id = some o := by
  induction l with
  | nil => simp [objFind] at h
  | cons e es ih =>
    obtain ⟨i, o'⟩ := e
    by_cases hi : i = id
    · simp only [objFind, hi, if_true, Option.some.injEq] at h
      subst h
      subst hi
      simp only [List.filter_cons, hp, if_true]
      simp [objFind]
    · simp only [objFind, hi, if_false] at h
      by_cases hk : p (i, o') = true
      · simp only [List.filter_cons, hk, if_true]
        simp only [objFind, hi, if_false]
        exact ih h
      · simp only [List.filter_cons, hk, if_false]
        exact ih h

theorem mem_objInsert (l : List (ObjId × LoObject)) (i : ObjId) (o : LoObject)
    (e : ObjId × LoObject) (h : e ∈ objInsert l i o) : e = (i, o) ∨ e ∈ l := by
  induction l with
  | nil => simpa [objInsert] using h
  | cons e' es ih =>
    obtain ⟨a, b⟩ := e'
    by_cases ha : a = i
    · simp only [objInsert, ha, if_true] at h
      rcases List.mem_cons.1 h with h0 | h0
      · exact Or.inl h0
      · exact Or.inr (List.mem_cons_of_mem _ h0)
    · simp only [objInsert, ha, if_false] at h
      rcases List.mem_cons.1 h with h0 | h0
      · exact Or.inr (h0 ▸ List.mem_cons_self _ _)
      · rcases ih h0 with h1 | h1
        · exact Or.inl h1
        · exact Or.inr (List.mem_cons_of_mem _ h1)

theorem objFind_objInsert_ne (l : List (ObjId × LoObject)) (i id : ObjId)
    (o : LoObject) (h : i ≠ id) : objFind (objInsert l i o) id = objFind l id := by
  induction l with
  | nil => simp [objInsert, objFind, h]
  | cons e es ih =>
    obtain ⟨a, b⟩ := e
    by_cases ha : a = i
    · simp only [objInsert, ha, if_true]
      simp [objFind, h, ha]
    · simp only [objInsert, ha, if_false]
      by_cases hid : a = id
      · simp [objFind, hid]
      · simp [objFind, hid, ih]

theorem mem_reachStep_left (objs : List (ObjId × LoObject)) (s : List ObjId)
    (x : ObjId) (h : x ∈ s) : x ∈ reachStep objs s := by
  simp only [reachStep, List.mem_append]
  exact Or.inl h

theorem mem_reachN_of_mem (objs : List (ObjId × LoObject)) (n : Nat)
    (s : List ObjId) (x : ObjId) (h : x ∈ s) : x ∈ reachN objs n s := by
  induction n with
  | zero => exact h
  | succ n ih => exact mem_reachStep_left objs _ x ih

theorem reachN_mono (objs : List (ObjId × LoObject)) (m n : Nat)
    (s : List ObjId) (x : ObjId) (hmn : m ≤ n) (h : x ∈ reachN objs m s) :
    x ∈ reachN objs n s := by
  induction n with
  | zero =>
    have : m = 0 := Nat.le_zero.1 hmn
    exact this ▸ h
  | succ n ih =>
    rcases Nat.lt_or_ge m (n + 1) with hlt | hge
    · exact mem_reachStep_left objs _ x (ih (Nat.lt_succ_iff.1 hlt))
    · have : m = n + 1 := Nat.le_antisymm hmn hge
      exact this ▸ h

theorem mem_reachN_step (objs : List (ObjId × LoObject)) (n : Nat)
    (s : List ObjId) (a b : ObjId) (o : LoObject) (ha : a ∈ reachN objs n s)
    (hfind : objFind objs a = some o) (hb : b ∈ refsOf o) :
    b ∈ reachN objs (n + 1) s := by
  simp only [reachN, reachStep, List.mem_append, List.mem_flatten, List.mem_map]
  refine Or.inr ⟨objRefsAt objs a, ⟨a, ha, rfl⟩, ?_⟩
  simp only [objRefsAt, hfind]
  exact hb

theorem pagesLoop_spec (mk : PdfPage → LoDict) (ps : List PdfPage) :
    ∀ inner : LoDocument, ∃ extra,
      (pagesLoop mk inner ps).2
        = { inner with
              maxId := inner.maxId + ps.length,
              objects := inner.objects ++ extra }
      ∧ ∀ e ∈ extra, inner.maxId < e.1.1 ∧ e.1.1 ≤ inner.maxId + ps.length := by
  induction ps with
  | nil =>
    intro inner
    refine ⟨[], ?_, ?_⟩
    · simp [pagesLoop]
    · intro e he
      cases he
  | cons pg rest ih =>
    intro inner
    obtain ⟨extra, heq, hbound⟩ := ih (addObject inner (.dict (mk pg)))
    refine ⟨((inner.maxId + 1, 0), .dict (mk pg)) :: extra, ?_, ?_⟩
    · simp only [pagesLoop]
      rw [heq]
      simp only [addObject, List.append_assoc, List.singleton_append,
        List.length_cons]
      congr 1
      omega
    · intro e he
      rcases List.mem_cons.1 he with h0 | h0
      · subst h0
        simp only [List.length_cons]
        omega
      · have := hbound e h0
        simp only [addObject, List.length_cons] at this ⊢
        omega

/-! ## Named intermediate values of the types-module save -/

/-- Whether the metadata compiler produced an ICC profile object (1) or not (0). -/
def iccBit (d : PdfDocument) : Nat :=
  match (d.metadata.into_obj).2.2 with
  | some _ => 1
  | none => 0

/-- The page-tree root identifier reserved by `new_object_id()` at the start of
the types-module save, before any page object is created. -/
def typesPagesId (d : PdfDocument) : ObjId := (d.inner_doc.maxId + 1, 0)

/-- The identifier the XMP metadata stream is registered at. -/
def typesXmpId (d : PdfDocument) : ObjId := (d.inner_doc.maxId + 2, 0)

/-- The identifier the info dictionary is registered at. -/
def typesInfoId (d : PdfDocument) : ObjId := (d.inner_doc.maxId + 3, 0)

/-- The identifier the ICC profile stream is registered at (when present). -/
def typesIccId (d : PdfDocument) : ObjId := (d.inner_doc.maxId + 4, 0)

/-- The identifier the catalog is registered at: after the metadata objects,
the optional profile and one object per page. -/
def typesCatalogId (d : PdfDocument) : ObjId :=
  (d.inner_doc.maxId + 3 + iccBit d + d.pages.length + 1, 0)

/-- The fixed output-intent dictionary of the types-module save. -/
def typesOutputIntentsBase : LoDict :=
  dictFromIter
    [("S", .name "GTS_PDFX"),
     ("OutputCondition", .str iccProfileDescr .literal),
     ("Type", .name "OutputIntent"),
     ("OutputConditionIdentifier", .str "FOGRA39" .literal),
     ("RegistryName", .str "http://www.color.org" .literal),
     ("Info", .str "Coated FOGRA39 (ISO 12647-2:2004)" .literal)]

/-- The output-intent dictionary as emitted: the profile reference is added
exactly when the metadata compiler produced a profile object. -/
def typesOutputIntents (d : PdfDocument) : LoDict :=
  match (d.metadata.into_obj).2.2 with
  | some _ =>
    dictSet typesOutputIntentsBase "DestinationOutputProfile"
      (.reference (typesIccId d))
  | none => typesOutputIntentsBase

/-- The catalog dictionary the types-module save registers. -/
def typesCatalogDict (d : PdfDocument) : LoDict :=
  dictFromIter
    [("Type", .name "Catalog"),
     ("PageLayout", .name "OneColumn"),
     ("PageMode", .name "Use0"),
     ("Pages", .reference (typesPagesId d)),
     ("Metadata", .reference (typesXmpId d)),
     ("OutputIntents", .array [.dict (typesOutputIntents d)])]

theorem pairNe (a b : Nat) (h : a ≠ b) : ((a, 0) : ObjId) ≠ (b, 0) := by
  intro hcontra
  injection hcontra with h1 h2
  exact h h1

theorem typesSavePre_shape (d : PdfDocument) (iid : String)
    (hwf : InnerWF d.inner_doc) :
    ∃ mid,
      (typesSavePre d iid).objects
        = mid ++ [(typesCatalogId d, .dict (typesCatalogDict d))]
      ∧ (∀ e ∈ mid, e.1.1 ≤ d.inner_doc.maxId + 3 + iccBit d + d.pages.length)
      ∧ objFind mid (typesInfoId d) = some (d.metadata.into_obj).2.1
      ∧ (∀ p, (d.metadata.into_obj).2.2 = some p →
          objFind mid (typesIccId d) = some p)
      ∧ (typesSavePre d iid).trailer
        = dictSet (dictSet (dictSet d.inner_doc.trailer
            "Root" (.reference (typesCatalogId d)))
            "Info" (.reference (typesInfoId d)))
            "ID" (.array [.str d.document_id .literal, .str iid .literal]) := by
  rcases hicc : (d.metadata.into_obj).2.2 with _ | profile
  case none =>
    have hbit : iccBit d = 0 := by simp [iccBit, hicc]
    have hcid : typesCatalogId d = (d.inner_doc.maxId + 3 + d.pages.length + 1, 0) := by
      simp [typesCatalogId, hbit]
    obtain ⟨extra, hloop, hbound⟩ :=
      pagesLoop_spec (pageDictTypes (d.inner_doc.maxId + 1, 0)) d.pages
        (addObject (addObject { d.inner_doc with maxId := d.inner_doc.maxId + 1 }
            (d.metadata.into_obj).1) (d.metadata.into_obj).2.1)
    refine ⟨objInsert
        ((d.inner_doc.objects
            ++ [((d.inner_doc.maxId + 2, 0), (d.metadata.into_obj).1)]
            ++ [((d.inner_doc.maxId + 3, 0), (d.metadata.into_obj).2.1)])
          ++ extra)
        (d.inner_doc.maxId + 1, 0)
        (.dict (dictSet (dictFromIter
            [("Type", .name "Pages"), ("Count", .integer d.pages.length)])
          "Kids" (.array (pagesLoop (pageDictTypes (d.inner_doc.maxId + 1, 0))
            (addObject (addObject { d.inner_doc with maxId := d.inner_doc.maxId + 1 }
              (d.metadata.into_obj).1) (d.metadata.into_obj).2.1) d.pages).1))),
      ?_, ?_, ?_, ?_, ?_⟩
    · rw [hcid]
      simp only [typesSavePre, newObjectId, hicc]
      rw [hloop]
      simp only [typesCatalogDict, typesOutputIntents, hicc, typesPagesId,
        typesXmpId]
      rfl
    · intro e he
      rw [hbit]
      rcases mem_objInsert _ _ _ _ he with h0 | h0
      · rw [h0]
        simp
        omega
      · rcases List.mem_append.1 h0 with h1 | h1
        · rcases List.mem_append.1 h1 with h2 | h2
          · rcases List.mem_append.1 h2 with h3 | h3
            · have := hwf e h3
              omega
            · simp at h3
              rw [h3]
              simp
              omega
          · simp at h2
            rw [h2]
            simp
        · have := hbound e h1
          simp only [addObject] at this
          omega
    · simp only [typesInfoId]
      rw [objFind_objInsert_ne _ _ _ _
        (pairNe (d.inner_doc.maxId + 1) (d.inner_doc.maxId + 3) (by omega))]
      have hpre : ∀ e ∈ (d.inner_doc.objects
          ++ [((d.inner_doc.maxId + 2, 0), (d.metadata.into_obj).1)]),
          e.1 ≠ (d.inner_doc.maxId + 3, 0) := by
        intro e he
        rcases List.mem_append.1 he with h1 | h1
        · have := hwf e h1
          intro hc
          rw [hc] at this
          simp at this
        · simp at h1
          rw [h1]
          exact pairNe _ _ (by omega)
      rw [List.append_assoc]
      rw [objFind_append_of_ne _ _ _ hpre]
      simp [objFind]
    · intro p hp
      cases hp
    · rw [hcid]
      simp only [typesSavePre, newObjectId, hicc]
      rw [hloop]
      rfl
  case some =>
    have hbit : iccBit d = 1 := by simp [iccBit, hicc]
    have hcid : typesCatalogId d
        = (d.inner_doc.maxId + 3 + 1 + d.pages.length + 1, 0) := by
      simp [typesCatalogId, hbit]
    obtain ⟨extra, hloop, hbound⟩ :=
      pagesLoop_spec (pageDictTypes (d.inner_doc.maxId + 1, 0)) d.pages
        (addObject (addObject (addObject { d.inner_doc with maxId := d.inner_doc.maxId + 1 }
            (d.metadata.into_obj).1) (d.metadata.into_obj).2.1) profile)
    refine ⟨objInsert
        ((d.inner_doc.objects
            ++ [((d.inner_doc.maxId + 2, 0), (d.metadata.into_obj).1)]
            ++ [((d.inner_doc.maxId + 3, 0), (d.metadata.into_obj).2.1)]
            ++ [((d.inner_doc.maxId + 4, 0), profile)])
          ++ extra)
        (d.inner_doc.maxId + 1, 0)
        (.dict (dictSet (dictFromIter
            [("Type", .name "Pages"), ("Count", .integer d.pages.length)])
          "Kids" (.array (pagesLoop (pageDictTypes (d.inner_doc.maxId + 1, 0))
            (addObject (addObject (addObject { d.inner_doc with maxId := d.inner_doc.maxId + 1 }
              (d.metadata.into_obj).1) (d.metadata.into_obj).2.1) profile) d.pages).1))),
      ?_, ?_, ?_, ?_, ?_⟩
    · rw [hcid]
      simp only [typesSavePre, newObjectId, hicc]
      rw [hloop]
      simp only [typesCatalogDict, typesOutputIntents, hicc, typesPagesId,
        typesXmpId, typesIccId]
      rfl
    · intro e he
      rw [hbit]
      rcases mem_objInsert _ _ _ _ he with h0 | h0
      · rw [h0]
        simp
        omega
      · rcases List.mem_append.1 h0 with h1 | h1
        · rcases List.mem_append.1 h1 with h2 | h2
          · rcases List.mem_append.1 h2 with h3 | h3
            · rcases List.mem_append.1 h3 with h4 | h4
              · have := hwf e h4
                omega
              · simp at h4
                rw [h4]
                simp
                omega
            · simp at h3
              rw [h3]
              simp
              omega
          · simp at h2
            rw [h2]
            simp
        · have := hbound e h1
          simp only [addObject] at this
          omega
    · simp only [typesInfoId]
      rw [objFind_objInsert_ne _ _ _ _
        (pairNe (d.inner_doc.maxId + 1) (d.inner_doc.maxId + 3) (by omega))]
      have hpre : ∀ e ∈ (d.inner_doc.objects
          ++ [((d.inner_doc.maxId + 2, 0), (d.metadata.into_obj).1)]),
          e.1 ≠ (d.inner_doc.maxId + 3, 0) := by
        intro e he
        rcases List.mem_append.1 he with h1 | h1
        · have := hwf e h1
          intro hc
          rw [hc] at this
          simp at this
        · simp at h1
          rw [h1]
          exact pairNe _ _ (by omega)
      rw [List.append_assoc, List.append_assoc]
      rw [objFind_append_of_ne _ _ _ hpre]
      simp [objFind]
    · intro p hp
      injection hp with hp1
      subst hp1
      simp only [typesIccId]
      rw [objFind_objInsert_ne _ _ _ _
        (pairNe (d.inner_doc.maxId + 1) (d.inner_doc.maxId + 4) (by omega))]
      have hpre : ∀ e ∈ (d.inner_doc.objects
          ++ [((d.inner_doc.maxId + 2, 0), (d.metadata.into_obj).1)]
          ++ [((d.inner_doc.maxId + 3, 0), (d.metadata.into_obj).2.1)]),
          e.1 ≠ (d.inner_doc.maxId + 4, 0) := by
        intro e he
        rcases List.mem_append.1 he with h1 | h1
        · rcases List.mem_append.1 h1 with h2 | h2
          · have := hwf e h2
            intro hc
            rw [hc] at this
            simp at this
          · simp at h2
            rw [h2]
            exact pairNe _ _ (by omega)
        · simp at h1
          rw [h1]
          exact pairNe _ _ (by omega)
      rw [List.append_assoc]
      rw [objFind_append_of_ne _ _ _ hpre]
      simp [objFind]
    · rw [hcid]
      simp only [typesSavePre, newObjectId, hicc]
      rw [hloop]
      rfl

/-- The trailer written by the types-module save (no well-formedness needed). -/
theorem typesSavePre_trailer (d : PdfDocument) (iid : String) :
    (typesSavePre d iid).trailer
      = dictSet (dictSet (dictSet d.inner_doc.trailer
          "Root" (.reference (typesCatalogId d)))
          "Info" (.reference (typesInfoId d)))
          "ID" (.array [.str d.document_id .literal, .str iid .literal]) := by
  rcases hicc : (d.metadata.into_obj).2.2 with _ | profile
  case none =>
    have hbit : iccBit d = 0 := by simp [iccBit, hicc]
    have hcid : typesCatalogId d
        = (d.inner_doc.maxId + 3 + d.pages.length + 1, 0) := by
      simp [typesCatalogId, hbit]
    obtain ⟨extra, hloop, hbound⟩ :=
      pagesLoop_spec (pageDictTypes (d.inner_doc.maxId + 1, 0)) d.pages
        (addObject (addObject { d.inner_doc with maxId := d.inner_doc.maxId + 1 }
            (d.metadata.into_obj).1) (d.metadata.into_obj).2.1)
    rw [hcid]
    simp only [typesSavePre, newObjectId, hicc]
    rw [hloop]
    rfl
  case some =>
    have hbit : iccBit d = 1 := by simp [iccBit, hicc]
    have hcid : typesCatalogId d
        = (d.inner_doc.maxId + 3 + 1 + d.pages.length + 1, 0) := by
      simp [typesCatalogId, hbit]
    obtain ⟨extra, hloop, hbound⟩ :=
      pagesLoop_spec (pageDictTypes (d.inner_doc.maxId + 1, 0)) d.pages
        (addObject (addObject (addObject { d.inner_doc with maxId := d.inner_doc.maxId + 1 }
            (d.metadata.into_obj).1) (d.metadata.into_obj).2.1) profile)
    rw [hcid]
    simp only [typesSavePre, newObjectId, hicc]
    rw [hloop]
    rfl

/-- Cleanup does not touch the trailer. -/
theorem typesSaveDoc_trailer (d : PdfDocument) (iid : String) :
    (typesSaveDoc d iid).trailer
      = dictSet (dictSet (dictSet d.inner_doc.trailer
          "Root" (.reference (typesCatalogId d)))
          "Info" (.reference (typesInfoId d)))
          "ID" (.array [.str d.document_id .literal, .str iid .literal]) :=
  typesSavePre_trailer d iid

/-- The catalog reference sits in the trailer under `Root`, hence the catalog
identifier is in the seed set of the pruning pass. -/
theorem typesSavePre_root_in_seed (d : PdfDocument) (iid : String) :
    typesCatalogId d ∈ refsOf (.dict (typesSavePre d iid).trailer) := by
  have hmem : ("Root", LoObject.reference (typesCatalogId d))
      ∈ (typesSavePre d iid).trailer := by
    rw [typesSavePre_trailer d iid]
    refine mem_dictSet_of_ne _ _ _ _ _ ?_ (by decide)
    refine mem_dictSet_of_ne _ _ _ _ _ ?_ (by decide)
    exact mem_dictSet_self _ _ _
  exact mem_refsOfEntries _ _ _ _ hmem (by simp [refsOf])

/-- The info reference sits in the trailer under `Info`. -/
theorem typesSavePre_info_in_seed (d : PdfDocument) (iid : String) :
    typesInfoId d ∈ refsOf (.dict (typesSavePre d iid).trailer) := by
  have hmem : ("Info", LoObject.reference (typesInfoId d))
      ∈ (typesSavePre d iid).trailer := by
    rw [typesSavePre_trailer d iid]
    refine mem_dictSet_of_ne _ _ _ _ _ ?_ (by decide)
    exact mem_dictSet_self _ _ _
  exact mem_refsOfEntries _ _ _ _ hmem (by simp [refsOf])

/-- Lookup survives the two cleanup filters when the identifier is reachable
and the object is not a zero-length stream. -/
theorem objFind_typesSaveDoc_of_pre (d : PdfDocument) (iid : String)
    (id : ObjId) (o : LoObject)
    (hpre : objFind (typesSavePre d iid).objects id = some o)
    (hreach : id ∈ reachN (typesSavePre d iid).objects
      (typesSavePre d iid).objects.length
      (refsOf (.dict (typesSavePre d iid).trailer)))
    (hz : isZeroLenStream o = false) :
    objFind (typesSaveDoc d iid).objects id = some o := by
  simp only [typesSaveDoc, deleteZeroLengthStreams, pruneObjects]
  apply objFind_filter
  · apply objFind_filter
    · exact hpre
    · exact decide_eq_true hreach
  · simp [hz]

/-- The catalog is registered, reachable from the trailer, and survives
cleanup. -/
theorem typesSaveDoc_catalog (d : PdfDocument) (iid : String)
    (hwf : InnerWF d.inner_doc) :
    objFind (typesSaveDoc d iid).objects (typesCatalogId d)
      = some (.dict (typesCatalogDict d)) := by
  obtain ⟨mid, hobj, hbound, hinfo, hiccf, htrail⟩ := typesSavePre_shape d iid hwf
  have hne : ∀ e ∈ mid, e.1 ≠ typesCatalogId d := by
    intro e he hc
    have := hbound e he
    rw [hc] at this
    simp only [typesCatalogId] at this
    omega
  have hprefind : objFind (typesSavePre d iid).objects (typesCatalogId d)
      = some (.dict (typesCatalogDict d)) := by
    rw [hobj, objFind_append_of_ne _ _ _ hne]
    simp [objFind]
  apply objFind_typesSaveDoc_of_pre d iid _ _ hprefind
  · exact mem_reachN_of_mem _ _ _ _ (typesSavePre_root_in_seed d iid)
  · simp [isZeroLenStream]

/-- The info dictionary is registered, reachable, and survives cleanup. -/
theorem typesSaveDoc_info (d : PdfDocument) (iid : String)
    (hwf : InnerWF d.inner_doc) :
    objFind (typesSaveDoc d iid).objects (typesInfoId d)
      = some (d.metadata.into_obj).2.1 := by
  obtain ⟨mid, hobj, hbound, hinfo, hiccf, htrail⟩ := typesSavePre_shape d iid hwf
  have hprefind : objFind (typesSavePre d iid).objects (typesInfoId d)
      = some (d.metadata.into_obj).2.1 := by
    rw [hobj]
    exact objFind_append_left _ _ _ _ hinfo
  apply objFind_typesSaveDoc_of_pre d iid _ _ hprefind
  · exact mem_reachN_of_mem _ _ _ _ (typesSavePre_info_in_seed d iid)
  · simp [PdfMetadata.into_obj, isZeroLenStream]

/-- The catalog dictionary written out, as a plain entry list. -/
theorem typesCatalogDict_entries (d : PdfDocument) :
    typesCatalogDict d
      = [("Type", .name "Catalog"),
         ("PageLayout", .name "OneColumn"),
         ("PageMode", .name "Use0"),
         ("Pages", .reference (typesPagesId d)),
         ("Metadata", .reference (typesXmpId d)),
         ("OutputIntents", .array [.dict (typesOutputIntents d)])] := rfl

/-- When a profile object is produced, the emitted output-intent dictionary
references the identifier it was registered at, and that identifier is
reachable from the trailer through the catalog. -/
theorem typesSaveDoc_icc (d : PdfDocument) (iid : String)
    (hwf : InnerWF d.inner_doc) (p : LoObject)
    (hicc : (d.metadata.into_obj).2.2 = some p)
    (hz : isZeroLenStream p = false) :
    objFind (typesSaveDoc d iid).objects (typesIccId d) = some p := by
  obtain ⟨mid, hobj, hbound, hinfo, hiccf, htrail⟩ := typesSavePre_shape d iid hwf
  have hne : ∀ e ∈ mid, e.1 ≠ typesCatalogId d := by
    intro e he hc
    have := hbound e he
    rw [hc] at this
    simp only [typesCatalogId] at this
    omega
  have hcatpre : objFind (typesSavePre d iid).objects (typesCatalogId d)
      = some (.dict (typesCatalogDict d)) := by
    rw [hobj, objFind_append_of_ne _ _ _ hne]
    simp [objFind]
  have hiccpre : objFind (typesSavePre d iid).objects (typesIccId d)
      = some p := by
    rw [hobj]
    exact objFind_append_left _ _ _ _ (hiccf p hicc)
  have h1 : ("DestinationOutputProfile", LoObject.reference (typesIccId d))
      ∈ typesOutputIntents d := by
    simp only [typesOutputIntents, hicc]
    exact mem_dictSet_self _ _ _
  have h2 : typesIccId d ∈ refsOfEntries (typesOutputIntents d) :=
    mem_refsOfEntries _ _ _ _ h1 (by simp [refsOf])
  have h3 : ("OutputIntents", LoObject.array [.dict (typesOutputIntents d)])
      ∈ typesCatalogDict d := by
    rw [typesCatalogDict_entries]
    simp
  have hrefs : typesIccId d ∈ refsOf (.dict (typesCatalogDict d)) := by
    refine mem_refsOfEntries _ _ _ _ h3 ?_
    simp only [refsOf, refsOfList]
    simpa using h2
  have hreach1 : typesIccId d ∈ reachN (typesSavePre d iid).objects 1
      (refsOf (.dict (typesSavePre d iid).trailer)) :=
    mem_reachN_step _ 0 _ _ _ _ (typesSavePre_root_in_seed d iid) hcatpre hrefs
  have hlen : 1 ≤ (typesSavePre d iid).objects.length := by
    rw [hobj]
    simp
  apply objFind_typesSaveDoc_of_pre d iid _ _ hiccpre
  · exact reachN_mono _ 1 _ _ _ hlen hreach1
  · exact hz

/-- The identifier reserved by `new_object_id()` at the start of the api
module's save (`start`), which the catalog and every page dictionary
reference. -/
def apiStartId (a : ApiPdfDocument) : ObjId := (a.inner_doc.maxId + 1, 0)

/-- The identifier the api module's save registers the catalog at. -/
def apiCatalogId (a : ApiPdfDocument) : ObjId :=
  (a.inner_doc.maxId + 1 + a.pages.length + 1, 0)

/-- The catalog dictionary of the api module's save. -/
def apiCatalogDict (a : ApiPdfDocument) : LoDict :=
  dictFromIter
    [("Type", .name "Catalog"),
     ("PageLayout", .name "OneColumn"),
     ("PageMode", .name "Use0"),
     ("Pages", .reference (apiStartId a))]

/-- Shape of the api module's saved document: the trailer's `Root` references
the catalog, the catalog's `Pages` entry references the reserved identifier
`start` — but no object is ever registered at `start` (the kids-holding
`Pages` dictionary is built and dropped). -/
theorem apiSaveDoc_shape (a : ApiPdfDocument) (hwf : InnerWF a.inner_doc) :
    objFind (apiSaveDoc a).objects (apiStartId a) = none
    ∧ objFind (apiSaveDoc a).objects (apiCatalogId a)
        = some (.dict (apiCatalogDict a))
    ∧ dictGet (apiSaveDoc a).trailer "Root"
        = some (.reference (apiCatalogId a)) := by
  obtain ⟨extra, hloop, hbound⟩ :=
    pagesLoop_spec (pageDictApi (a.inner_doc.maxId + 1, 0)) a.pages
      ({ a.inner_doc with maxId := a.inner_doc.maxId + 1 })
  refine ⟨?_, ?_, ?_⟩
  · simp only [apiSaveDoc, newObjectId, compress]
    rw [hloop]
    simp only [addObject]
    apply objFind_eq_none
    intro e he
    rcases List.mem_append.1 he with h1 | h1
    · rcases List.mem_append.1 h1 with h2 | h2
      · have := hwf e h2
        intro hc
        rw [hc] at this
        simp only [apiStartId] at this
        omega
      · have := hbound e h2
        intro hc
        rw [hc] at this
        simp only [apiStartId] at this
        omega
    · simp at h1
      rw [h1]
      simp only [apiStartId]
      intro hc
      injection hc with hc1 hc2
      omega
  · simp only [apiSaveDoc, newObjectId, compress]
    rw [hloop]
    simp only [addObject]
    have hne : ∀ e ∈ (a.inner_doc.objects ++ extra), e.1 ≠ apiCatalogId a := by
      intro e he
      rcases List.mem_append.1 he with h1 | h1
      · have := hwf e h1
        intro hc
        rw [hc] at this
        simp only [apiCatalogId] at this
        omega
      · have := hbound e h1
        intro hc
        rw [hc] at this
        simp only [apiCatalogId] at this
        omega
    rw [objFind_append_of_ne _ _ _ hne]
    simp only [apiCatalogId, apiCatalogDict, apiStartId, objFind]
    rfl
  · simp only [apiSaveDoc, newObjectId, compress]
    rw [hloop]
    simp only [apiCatalogId]
    rw [dictGet_dictSet_self]
    rfl

theorem listModify_ne_nil (f : α → α) (i : Nat) (l : List α) (h : l ≠ []) :
    listModify f i l ≠ [] := by
  cases l with
  | nil => exact absurd rfl h
  | cons a as =>
    cases i with
    | zero => simp [listModify]
    | succ n => simp [listModify]

theorem listModify_pred (P : α → Prop) (f : α → α) (i : Nat)
    (hf : ∀ a, P a → P (f a)) :
    ∀ l : List α, (∀ a ∈ l, P a) → ∀ a ∈ listModify f i l, P a := by
  induction i with
  | zero =>
    intro l hl a ha
    cases l with
    | nil => cases ha
    | cons b bs =>
      rcases List.mem_cons.1 ha with h0 | h0
      · exact h0 ▸ hf b (hl b (List.mem_cons_self _ _))
      · exact hl a (List.mem_cons_of_mem _ h0)
  | succ n ih =>
    intro l hl a ha
    cases l with
    | nil => cases ha
    | cons b bs =>
      rcases List.mem_cons.1 ha with h0 | h0
      · exact h0 ▸ hl b (List.mem_cons_self _ _)
      · exact ih bs (fun x hx => hl x (List.mem_cons_of_mem _ hx)) a h0

/-- The at-least-one-page / at-least-one-layer invariant, for the types
module, by induction over the constructible states. -/
theorem typesReachable_invariant (d : PdfDocument) (h : TypesReachable d) :
    d.pages ≠ [] ∧ ∀ p ∈ d.pages, p.layers ≠ [] := by
  induction h with
  | new t w hh ln did now =>
    refine ⟨by simp [PdfDocument.new], ?_⟩
    intro p hp
    simp only [PdfDocument.new, PdfPage.new] at hp
    simp only [List.mem_singleton] at hp
    rw [hp]
    simp
  | with_trapping d b _ ih => exact ih
  | with_document_id d id _ ih => exact ih
  | with_document_version d v _ ih => exact ih
  | with_conformance d c _ ih => exact ih
  | with_mod_date d dt _ ih => exact ih
  | set_title d t _ ih => exact ih
  | add_page d w hh nm d' i j _ hadd ih =>
    simp only [PdfDocument.add_page] at hadd
    rcases hpages : d.pages with _ | ⟨p0, ps⟩
    · rw [hpages] at hadd
      cases hadd
    · rw [hpages] at hadd
      injection hadd with hadd1
      injection hadd1 with hD hIJ
      subst hD
      constructor
      · simp
      · intro p hp
        simp only [List.mem_append, List.mem_singleton] at hp
        rcases hp with hp | hp
        · exact ih.2 p (by rw [hpages]; exact hp)
        · rw [hp]
          simp [PdfPage.new]
  | add_arbitrary_content d o _ ih => exact ih
  | page_add_layer d i nm _ ih =>
    refine ⟨listModify_ne_nil _ _ _ ih.1, ?_⟩
    refine listModify_pred (fun p => p.layers ≠ [])
      (fun p => (p.add_layer nm).1) i ?_ d.pages ih.2
    intro p hp
    simp [PdfPage.add_layer]
  | layer_add_marker d i j x y _ ih =>
    refine ⟨listModify_ne_nil _ _ _ ih.1, ?_⟩
    refine listModify_pred (fun p => p.layers ≠ [])
      (fun p =>
        { p with layers := listModify (fun l => (l.add_marker x y).1) j p.layers })
      i ?_ d.pages ih.2
    intro p hp
    exact listModify_ne_nil _ _ _ hp

/-- The same invariant for the api module. -/
theorem apiReachable_invariant (a : ApiPdfDocument) (h : ApiReachable a) :
    a.pages ≠ [] ∧ ∀ p ∈ a.pages, p.layers ≠ [] := by
  induction h with
  | new p t c hp =>
    refine ⟨by simp [ApiPdfDocument.new], ?_⟩
    intro q hq
    simp only [ApiPdfDocument.new, List.mem_singleton] at hq
    rw [hq]
    exact hp
  | add_page a x y _ ih =>
    refine ⟨by simp [ApiPdfDocument.add_page], ?_⟩
    intro p hp
    simp only [ApiPdfDocument.add_page, List.mem_append, List.mem_singleton] at hp
    rcases hp with hp | hp
    · exact ih.2 p hp
    · rw [hp]
      simp [PdfPage.newApi]
  | add_layer a nm page _ ih =>
    rcases hpg : a.pages.get? page with _ | p
    · simp only [ApiPdfDocument.add_layer, hpg]
      exact ih
    · simp only [ApiPdfDocument.add_layer, hpg]
      refine ⟨listModify_ne_nil _ _ _ ih.1, ?_⟩
      refine listModify_pred (fun q => q.layers ≠ [])
        (fun _ => (p.add_layer nm).1) page ?_ a.pages ih.2
      intro q hq
      simp [PdfPage.add_layer]
  | add_marker a x y layer _ ih =>
    rcases hpg : a.pages.get? layer.1 with _ | p
    · simp only [ApiPdfDocument.add_marker, hpg]
      exact ih
    · rcases hlg : p.layers.get? layer.2 with _ | l
      · simp only [ApiPdfDocument.add_marker, hpg, hlg]
        exact ih
      · simp only [ApiPdfDocument.add_marker, hpg, hlg]
        refine ⟨listModify_ne_nil _ _ _ ih.1, ?_⟩
        refine listModify_pred (fun q => q.layers ≠ [])
          (fun pg =>
            { pg with layers :=
                listModify (fun _ => (l.add_marker x y).1) layer.2 pg.layers })
          layer.1 ?_ a.pages ih.2
        intro q hq
        exact listModify_ne_nil _ _ _ hq
  | add_arbitrary_content a o _ ih => exact ih
  | set_current_marker a m _ ih => exact ih

/-- Claim C1: every page-access operation on a document returns
`IndexError(PdfPageIndexError)` for an out-of-range page index and never
panics.  The api module's `get_page` / `get_mut_page` and the page hop of
`get_layer` / `get_marker` do return that error kind, but the types module's
`get_page_mut` calls `unwrap()` on the failed lookup and panics, contradicting
the claim. -/
theorem claim_C1 (a : ApiPdfDocument) (d : PdfDocument) (i j k : Nat)
    (h1 : a.pages.length ≤ i) (h2 : d.pages.length ≤ i) :
    a.get_page i = .error (.indexError .pdfPageIndexError)
    ∧ a.get_mut_page i = .error (.indexError .pdfPageIndexError)
    ∧ a.get_layer (i, j) = .error (.indexError .pdfPageIndexError)
    ∧ a.get_marker (i, j, k) = .error (.indexError .pdfPageIndexError)
    ∧ d.get_page_mut i = PanicOr.panicked := by
  have hga : a.pages.get? i = none := by
    rw [List.get?_eq_none]
    exact h1
  have hgd : d.pages.get? i = none := by
    rw [List.get?_eq_none]
    exact h2
  refine ⟨?_, ?_, ?_, ?_, ?_⟩
  · unfold ApiPdfDocument.get_page
    rw [hga]
  · unfold ApiPdfDocument.get_mut_page
    rw [hga]
  · unfold ApiPdfDocument.get_layer ApiPdfDocument.get_page
    rw [hga]
  · unfold ApiPdfDocument.get_marker ApiPdfDocument.get_page
    rw [hga]
  · unfold PdfDocument.get_page_mut
    rw [hgd]
    rfl

theorem claim_C1_witness :
    apiDemoDoc.pages.length ≤ 1 ∧ typesDemoDoc.pages.length ≤ 1
    ∧ apiDemoDoc.get_page 1 = .error (.indexError .pdfPageIndexError)
    ∧ apiDemoDoc.get_mut_page 1 = .error (.indexError .pdfPageIndexError)
    ∧ apiDemoDoc.get_layer (1, 0) = .error (.indexError .pdfPageIndexError)
    ∧ apiDemoDoc.get_marker (1, 0, 0) = .error (.indexError .pdfPageIndexError)
    ∧ typesDemoDoc.get_page_mut 1 = PanicOr.panicked := by
  have h := claim_C1 apiDemoDoc typesDemoDoc 1 0 0 (by decide) (by decide)
  exact ⟨by decide, by decide, h.1, h.2.1, h.2.2.1, h.2.2.2.1, h.2.2.2.2⟩

/-- Claim C2: save registers the page-tree dictionary (`Type=Pages`,
`Count=page count`, `Kids=page ids in insertion order`) at the identifier
reserved before any page object was created.  The types-module save does
(shown on a concrete document: the pages dictionary sits at the reserved
identifier `(1,0)` with correct `Count` and `Kids`), but the api-module save
never registers anything at the reserved identifier `start`, even though its
catalog references it — contradicting the claim. -/
theorem claim_C2 (a : ApiPdfDocument) (hwf : InnerWF a.inner_doc) :
    objFind (apiSaveDoc a).objects (apiStartId a) = none
    ∧ objFind (apiSaveDoc a).objects (apiCatalogId a)
        = some (.dict (apiCatalogDict a))
    ∧ dictGet (apiCatalogDict a) "Pages" = some (.reference (apiStartId a))
    ∧ dictGet (apiSaveDoc a).trailer "Root"
        = some (.reference (apiCatalogId a))
    ∧ typesPagesId typesDemoDoc = (1, 0)
    ∧ objFind (typesSaveDoc typesDemoDoc "INSTANCEID").objects (1, 0)
        = some (.dict [("Type", .name "Pages"), ("Count", .integer 1),
            ("Kids", .array [.reference (4, 0)])]) := by
  obtain ⟨hnone, hcat, hroot⟩ := apiSaveDoc_shape a hwf
  exact ⟨hnone, hcat, rfl, hroot, rfl, rfl⟩

theorem claim_C2_witness :
    InnerWF apiDemoDoc.inner_doc
    ∧ objFind (apiSaveDoc apiDemoDoc).objects (apiStartId apiDemoDoc) = none
    ∧ dictGet (apiCatalogDict apiDemoDoc) "Pages"
        = some (.reference (apiStartId apiDemoDoc)) := by
  have hwf : InnerWF apiDemoDoc.inner_doc := by
    intro e he
    cases he
  have h := claim_C2 apiDemoDoc hwf
  exact ⟨hwf, h.1, h.2.2.1⟩

/-- Claim C3: each emitted page dictionary carries `Type=Page`, `Rotate=0`,
`MediaBox` / `TrimBox` / `CropBox` equal to `[0, 0, width, height]` in native
units, and `Parent` referencing the reserved page-tree identifier.  The
types-module save emits exactly these keys (first conjunct, concrete
document), but the api-module save emits only `Type`, `MediaBox` and `Parent`:
`Rotate`, `TrimBox` and `CropBox` are absent, contradicting the claim. -/
theorem claim_C3 :
    objFind (typesSaveDoc typesDemoDoc "INSTANCEID").objects (4, 0)
      = some (.dict
          [("Type", .name "Page"),
           ("Rotate", .integer 0),
           ("MediaBox", .array [.integer 0, .integer 0,
              .real (mmToPt 210), .real (mmToPt 297)]),
           ("TrimBox", .array [.integer 0, .integer 0,
              .real (mmToPt 210), .real (mmToPt 297)]),
           ("CropBox", .array [.integer 0, .integer 0,
              .real (mmToPt 210), .real (mmToPt 297)]),
           ("Parent", .reference (1, 0))])
    ∧ objFind (apiSaveDoc apiDemoDoc).objects (2, 0)
      = some (.dict
          [("Type", .name "Page"),
           ("MediaBox", .array [.integer 0, .integer 0,
              .real (mmToPt 210), .real (mmToPt 297)]),
           ("Parent", .reference (1, 0))])
    ∧ (match objFind (apiSaveDoc apiDemoDoc).objects (2, 0) with
       | some (.dict es) =>
         (dictGet es "Rotate", dictGet es "TrimBox", dictGet es "CropBox")
       | _ => (some .null, some .null, some .null))
      = (none, none, none) :=
  ⟨rfl, rfl, rfl⟩

/-- Claim C4: an I/O failure while writing the output stream makes save
return the typed `IoError`.  In fact both save functions call
`save_to(target).unwrap()`, so an I/O failure panics instead of returning
`IoError` — contradicting the claim (for every document and every failing
target). -/
theorem claim_C4 (d : PdfDocument) (a : ApiPdfDocument) (iid : String) :
    typesSaveRun d iid true = PanicOr.panicked
    ∧ apiSaveRun a true = PanicOr.panicked :=
  ⟨rfl, rfl⟩

/-- Claim C9: a marker stores its coordinates converted once from millimeters
by the fixed linear ratio: 25.4 mm is exactly 72 native units, and the
conversion is linear (additive and homogeneous) with no error conditions. -/
theorem claim_C9 (x y a b c : Rat) :
    (PdfMarker.new x y).x_pt = mmToPt x
    ∧ (PdfMarker.new x y).y_pt = mmToPt y
    ∧ mmToPt (254 / 10) = 72
    ∧ mmToPt (a + b) = mmToPt a + mmToPt b
    ∧ mmToPt (c * a) = c * mmToPt a := by
  refine ⟨rfl, rfl, by norm_num [mmToPt], ?_, ?_⟩ <;>
    simp [mmToPt] <;> ring

/-- Claim C10: each builder setter changes exactly the metadata field it
names: pages, contents, the inner low-level document, the top-level
`document_id` and every other metadata field are untouched. -/
theorem claim_C10 (d : PdfDocument) (b : Bool) (id : String) (v : Nat)
    (c : PdfConformance) (dt : DateTimeLocal) :
    ((d.with_trapping b).pages = d.pages
      ∧ (d.with_trapping b).contents = d.contents
      ∧ (d.with_trapping b).inner_doc = d.inner_doc
      ∧ (d.with_trapping b).document_id = d.document_id
      ∧ (d.with_trapping b).metadata.trapping = b
      ∧ (d.with_trapping b).metadata.document_title = d.metadata.document_title
      ∧ (d.with_trapping b).metadata.document_version = d.metadata.document_version
      ∧ (d.with_trapping b).metadata.conformance = d.metadata.conformance
      ∧ (d.with_trapping b).metadata.creation_date = d.metadata.creation_date
      ∧ (d.with_trapping b).metadata.modification_date = d.metadata.modification_date
      ∧ (d.with_trapping b).metadata.xmp_metadata = d.metadata.xmp_metadata
      ∧ (d.with_trapping b).metadata.icc_profile = d.metadata.icc_profile)
    ∧ ((d.with_document_id id).pages = d.pages
      ∧ (d.with_document_id id).contents = d.contents
      ∧ (d.with_document_id id).inner_doc = d.inner_doc
      ∧ (d.with_document_id id).document_id = d.document_id
      ∧ (d.with_document_id id).metadata.xmp_metadata.document_id = id
      ∧ (d.with_document_id id).metadata.document_title = d.metadata.document_title
      ∧ (d.with_document_id id).metadata.document_version = d.metadata.document_version
      ∧ (d.with_document_id id).metadata.trapping = d.metadata.trapping
      ∧ (d.with_document_id id).metadata.conformance = d.metadata.conformance
      ∧ (d.with_document_id id).metadata.creation_date = d.metadata.creation_date
      ∧ (d.with_document_id id).metadata.modification_date = d.metadata.modification_date
      ∧ (d.with_document_id id).metadata.icc_profile = d.metadata.icc_profile)
    ∧ ((d.with_document_version v).pages = d.pages
      ∧ (d.with_document_version v).contents = d.contents
      ∧ (d.with_document_version v).inner_doc = d.inner_doc
      ∧ (d.with_document_version v).document_id = d.document_id
      ∧ (d.with_document_version v).metadata.document_version = v
      ∧ (d.with_document_version v).metadata.document_title = d.metadata.document_title
      ∧ (d.with_document_version v).metadata.trapping = d.metadata.trapping
      ∧ (d.with_document_version v).metadata.conformance = d.metadata.conformance
      ∧ (d.with_document_version v).metadata.creation_date = d.metadata.creation_date
      ∧ (d.with_document_version v).metadata.modification_date = d.metadata.modification_date
      ∧ (d.with_document_version v).metadata.xmp_metadata = d.metadata.xmp_metadata
      ∧ (d.with_document_version v).metadata.icc_profile = d.metadata.icc_profile)
    ∧ ((d.with_conformance c).pages = d.pages
      ∧ (d.with_conformance c).contents = d.contents
      ∧ (d.with_conformance c).inner_doc = d.inner_doc
      ∧ (d.with_conformance c).document_id = d.document_id
      ∧ (d.with_conformance c).metadata.conformance = c
      ∧ (d.with_conformance c).metadata.document_title = d.metadata.document_title
      ∧ (d.with_conformance c).metadata.document_version = d.metadata.document_version
      ∧ (d.with_conformance c).metadata.trapping = d.metadata.trapping
      ∧ (d.with_conformance c).metadata.creation_date = d.metadata.creation_date
      ∧ (d.with_conformance c).metadata.modification_date = d.metadata.modification_date
      ∧ (d.with_conformance c).metadata.xmp_metadata = d.metadata.xmp_metadata
      ∧ (d.with_conformance c).metadata.icc_profile = d.metadata.icc_profile)
    ∧ ((d.with_mod_date dt).pages = d.pages
      ∧ (d.with_mod_date dt).contents = d.contents
      ∧ (d.with_mod_date dt).inner_doc = d.inner_doc
      ∧ (d.with_mod_date dt).document_id = d.document_id
      ∧ (d.with_mod_date dt).metadata.modification_date = dt
      ∧ (d.with_mod_date dt).metadata.document_title = d.metadata.document_title
      ∧ (d.with_mod_date dt).metadata.document_version = d.metadata.document_version
      ∧ (d.with_mod_date dt).metadata.trapping = d.metadata.trapping
      ∧ (d.with_mod_date dt).metadata.conformance = d.metadata.conformance
      ∧ (d.with_mod_date dt).metadata.creation_date = d.metadata.creation_date
      ∧ (d.with_mod_date dt).metadata.xmp_metadata = d.metadata.xmp_metadata
      ∧ (d.with_mod_date dt).metadata.icc_profile = d.metadata.icc_profile) := by
  and_intros <;> rfl

/-- Claim C5 counterexample: the claim says the catalog contains an
`OutputIntents` array exactly when an ICC profile is set — "when no profile is
set, no output intent is emitted".  On a concrete document with no ICC
profile, the emitted catalog still contains a length-one `OutputIntents`
array, so the claim is false. -/
theorem claim_C5_counterexample :
    typesDemoDoc.metadata.icc_profile = none
    ∧ objFind (typesSaveDoc typesDemoDoc "INSTANCEID").objects (5, 0)
        = some (.dict (typesCatalogDict typesDemoDoc))
    ∧ dictGet (typesCatalogDict typesDemoDoc) "OutputIntents"
        = some (.array [.dict typesOutputIntentsBase])
    ∧ dictGet typesOutputIntentsBase "OutputConditionIdentifier"
        = some (.str "FOGRA39" .literal) :=
  ⟨rfl, rfl, rfl, rfl⟩

/-- Claim C5 (amended): the catalog emitted by the types-module save always
contains an `OutputIntents` array of length one whose dictionary carries the
fixed registry fields `RegistryName = "http://www.color.org"` and condition
identifier `"FOGRA39"`; the dictionary carries a `DestinationOutputProfile`
reference to the identifier the embedded profile stream is registered at
exactly when an ICC profile is set on the metadata (and the profile stream
object itself is present at that identifier whenever the profile data is
non-empty). -/
theorem claim_C5 (d : PdfDocument) (iid : String)
    (hwf : InnerWF d.inner_doc) :
    dictGet (typesSaveDoc d iid).trailer "Root"
      = some (.reference (typesCatalogId d))
    ∧ objFind (typesSaveDoc d iid).objects (typesCatalogId d)
        = some (.dict (typesCatalogDict d))
    ∧ dictGet (typesCatalogDict d) "OutputIntents"
        = some (.array [.dict (typesOutputIntents d)])
    ∧ dictGet (typesOutputIntents d) "RegistryName"
        = some (.str "http://www.color.org" .literal)
    ∧ dictGet (typesOutputIntents d) "OutputConditionIdentifier"
        = some (.str "FOGRA39" .literal)
    ∧ (d.metadata.icc_profile.isSome
        ↔ dictGet (typesOutputIntents d) "DestinationOutputProfile"
            = some (.reference (typesIccId d)))
    ∧ (∀ p : String, d.metadata.icc_profile = some p → p.length ≠ 0 →
        objFind (typesSaveDoc d iid).objects (typesIccId d)
          = some (.stream [("Length", .integer p.length)] p)) := by
  refine ⟨?_, typesSaveDoc_catalog d iid hwf, rfl, ?_, ?_, ?_, ?_⟩
  · rw [typesSaveDoc_trailer d iid,
      dictGet_dictSet_ne _ _ _ _ (by decide),
      dictGet_dictSet_ne _ _ _ _ (by decide),
      dictGet_dictSet_self]
  · rcases hicc : d.metadata.icc_profile with _ | p
    · have h : typesOutputIntents d = typesOutputIntentsBase := by
        simp [typesOutputIntents, PdfMetadata.into_obj, hicc]
      rw [h]
      rfl
    · have h : typesOutputIntents d
          = dictSet typesOutputIntentsBase "DestinationOutputProfile"
              (.reference (typesIccId d)) := by
        simp [typesOutputIntents, PdfMetadata.into_obj, hicc]
      rw [h, dictGet_dictSet_ne _ _ _ _ (by decide)]
      rfl
  · rcases hicc : d.metadata.icc_profile with _ | p
    · have h : typesOutputIntents d = typesOutputIntentsBase := by
        simp [typesOutputIntents, PdfMetadata.into_obj, hicc]
      rw [h]
      rfl
    · have h : typesOutputIntents d
          = dictSet typesOutputIntentsBase "DestinationOutputProfile"
              (.reference (typesIccId d)) := by
        simp [typesOutputIntents, PdfMetadata.into_obj, hicc]
      rw [h, dictGet_dictSet_ne _ _ _ _ (by decide)]
      rfl
  · rcases hicc : d.metadata.icc_profile with _ | p
    · have h : typesOutputIntents d = typesOutputIntentsBase := by
        simp [typesOutputIntents, PdfMetadata.into_obj, hicc]
      rw [h]
      simp [dictGet, typesOutputIntentsBase, dictFromIter, dictSet]
    · have h : typesOutputIntents d
          = dictSet typesOutputIntentsBase "DestinationOutputProfile"
              (.reference (typesIccId d)) := by
        simp [typesOutputIntents, PdfMetadata.into_obj, hicc]
      rw [h, dictGet_dictSet_self]
      simp
  · intro p hp hlen
    apply typesSaveDoc_icc d iid hwf
    · simp [PdfMetadata.into_obj, hp]
    · simp [isZeroLenStream]
      exact hlen

theorem claim_C5_witness :
    InnerWF typesDemoDoc.inner_doc
    ∧ dictGet (typesOutputIntents typesDemoDoc) "RegistryName"
        = some (.str "http://www.color.org" .literal)
    ∧ dictGet (typesOutputIntents typesDemoDoc) "OutputConditionIdentifier"
        = some (.str "FOGRA39" .literal) := by
  have hwf : InnerWF typesDemoDoc.inner_doc := by
    intro e he
    cases he
  have h := claim_C5 typesDemoDoc "ANOTHERINSTANCE" hwf
  exact ⟨hwf, h.2.2.2.1, h.2.2.2.2.1⟩

/-- Claim C6: `add_page(width_mm, height_mm, initial_layer_name)` on the types
module creates a page pre-populated with exactly one layer, appends it, and
returns the pair (page index = number of pages before the call, layer index);
with at least one page present (the invariant of every constructible document)
it cannot fail, and nothing else in the document changes. -/
theorem claim_C6 (d : PdfDocument) (w h : Rat) (nm : String)
    (hne : d.pages ≠ []) :
    ∃ d', d.add_page w h nm = some (d', d.pages.length, 0)
      ∧ d'.pages = d.pages ++ [(PdfPage.new w h nm).1]
      ∧ (PdfPage.new w h nm).1.layers = [PdfLayer.new nm]
      ∧ d'.pages.length = d.pages.length + 1
      ∧ d'.contents = d.contents ∧ d'.inner_doc = d.inner_doc
      ∧ d'.document_id = d.document_id ∧ d'.metadata = d.metadata := by
  rcases hp : d.pages with _ | ⟨p0, ps⟩
  · exact absurd hp hne
  · refine ⟨{ d with pages := d.pages ++ [(PdfPage.new w h nm).1] },
      ?_, by simp [hp], rfl, by simp [hp], rfl, rfl, rfl, rfl⟩
    simp [PdfDocument.add_page, hp]
    rfl

theorem claim_C6_witness :
    typesDemoDoc.pages ≠ []
    ∧ ∃ d', typesDemoDoc.add_page 100 100 "Layer 2"
        = some (d', typesDemoDoc.pages.length, 0) := by
  have hne : typesDemoDoc.pages ≠ [] := by
    simp [typesDemoDoc, PdfDocument.new]
  obtain ⟨d', h1, _⟩ := claim_C6 typesDemoDoc 100 100 "Layer 2" hne
  exact ⟨hne, d', h1⟩

/-- Claim C7: the trailer written by save contains `Root` referencing the
catalog, `Info` referencing the info dictionary, and `ID` equal to the
two-element array `[document_id, instance_id]`, where `document_id` is the
value fixed at document creation (`PdfDocument::new` stores the drawn
identifier and save copies it into the trailer unchanged) while the
`instance_id` is the value drawn freshly inside the save call, so two saves
with distinct draws produce different `ID` arrays even for content-identical
documents. -/
theorem claim_C7 (d d₂ : PdfDocument) (iid iid₂ : String)
    (t : String) (w h : Rat) (ln did : String) (now : DateTimeLocal)
    (hwf : InnerWF d.inner_doc) (hne : iid ≠ iid₂) :
    dictGet (typesSaveDoc d iid).trailer "ID"
      = some (.array [.str d.document_id .literal, .str iid .literal])
    ∧ (PdfDocument.new t w h ln did now).1.document_id = did
    ∧ dictGet (typesSaveDoc d iid).trailer "Root"
        = some (.reference (typesCatalogId d))
    ∧ objFind (typesSaveDoc d iid).objects (typesCatalogId d)
        = some (.dict (typesCatalogDict d))
    ∧ dictGet (typesCatalogDict d) "Type" = some (.name "Catalog")
    ∧ dictGet (typesSaveDoc d iid).trailer "Info"
        = some (.reference (typesInfoId d))
    ∧ objFind (typesSaveDoc d iid).objects (typesInfoId d)
        = some (d.metadata.into_obj).2.1
    ∧ dictGet (typesSaveDoc d iid).trailer "ID"
        ≠ dictGet (typesSaveDoc d₂ iid₂).trailer "ID" := by
  refine ⟨?_, rfl, ?_, typesSaveDoc_catalog d iid hwf, rfl, ?_,
    typesSaveDoc_info d iid hwf, ?_⟩
  · rw [typesSaveDoc_trailer d iid, dictGet_dictSet_self]
  · rw [typesSaveDoc_trailer d iid,
      dictGet_dictSet_ne _ _ _ _ (by decide),
      dictGet_dictSet_ne _ _ _ _ (by decide),
      dictGet_dictSet_self]
  · rw [typesSaveDoc_trailer d iid,
      dictGet_dictSet_ne _ _ _ _ (by decide),
      dictGet_dictSet_self]
  · rw [typesSaveDoc_trailer d iid, typesSaveDoc_trailer d₂ iid₂,
      dictGet_dictSet_self, dictGet_dictSet_self]
    intro hcontra
    simp only [Option.some.injEq] at hcontra
    injection hcontra with harr
    injection harr with h1 hrest
    injection hrest with h2
    injection h2 with h2a
    exact hne h2a

theorem claim_C7_witness :
    InnerWF typesDemoDoc.inner_doc
    ∧ ("IIDA" : String) ≠ "IIDB"
    ∧ dictGet (typesSaveDoc typesDemoDoc "IIDA").trailer "ID"
        = some (.array [.str typesDemoDoc.document_id .literal,
            .str "IIDA" .literal])
    ∧ (PdfDocument.new "T" 10 10 "L" "SOMEID" ⟨5⟩).1.document_id = "SOMEID"
    ∧ dictGet (typesSaveDoc typesDemoDoc "IIDA").trailer "ID"
        ≠ dictGet (typesSaveDoc typesDemoDoc "IIDB").trailer "ID" := by
  have hwf : InnerWF typesDemoDoc.inner_doc := by
    intro e he
    cases he
  have hne : ("IIDA" : String) ≠ "IIDB" := by decide
  have h := claim_C7 typesDemoDoc typesDemoDoc "IIDA" "IIDB"
    "T" 10 10 "L" "SOMEID" ⟨5⟩ hwf hne
  exact ⟨hwf, hne, h.1, h.2.1, h.2.2.2.2.2.2.2⟩

/-- Claim C8: every constructible document state has at least one page and
every page at least one layer: the constructors create one page with one
layer, both modules' `add_page` create their page with an initial layer, and
every other public operation only appends or leaves the page/layer lists
untouched. -/
theorem claim_C8 :
    (∀ d : PdfDocument, TypesReachable d →
      d.pages ≠ [] ∧ ∀ p ∈ d.pages, p.layers ≠ [])
    ∧ ∀ a : ApiPdfDocument, ApiReachable a →
      a.pages ≠ [] ∧ ∀ p ∈ a.pages, p.layers ≠ [] :=
  ⟨typesReachable_invariant, apiReachable_invariant⟩

theorem claim_C8_witness :
    typesDemoDoc.pages ≠ [] ∧ apiDemoDoc.pages ≠ [] := by
  have h1 := claim_C8.1 typesDemoDoc
    (TypesReachable.new "Document" 210 297 "Layer 1" "THEDOCUMENTID" ⟨0⟩)
  have h2 := claim_C8.2 apiDemoDoc
    (ApiReachable.new (PdfPage.newApi 210 297) "Document" "Creator"
      (by simp [PdfPage.newApi]))
  exact ⟨h1.1, h2.1⟩
